import Mathlib

/-!
Shallow embedding of the data-protection core of the RBAC-Management-IS
repository (`src/utils.py`): role-based masking of patient records,
anonymization/masking transforms, password hashing, reversible encryption,
and GDPR retention-expiry checking.

Python strings are embedded as Lean `String`; a Python value that may be
`None` is an `Option String`; a Python dict (patient record) is an
association list `List (String × Option String)` preserving insertion
order, as Python dicts do.  A Python function that can raise an uncaught
exception is embedded with result type `Except Unit _`, where
`Except.error ()` marks the uncaught exception.
-/

instance {ε α : Type} [DecidableEq ε] [DecidableEq α] : DecidableEq (Except ε α) := fun a b =>
  match a, b with
  | Except.ok x, Except.ok y => decidable_of_iff (x = y) (by simp)
  | Except.ok _, Except.error _ => isFalse (by simp)
  | Except.error _, Except.ok _ => isFalse (by simp)
  | Except.error x, Except.error y => decidable_of_iff (x = y) (by simp)

namespace RBAC

/-- A patient record: a Python dict mapping field names to values
(each value either a string or Python `None`). -/
abbrev Record : Type := List (String × Option String)

/-- Key lookup in a dict: `some v` when the key is present with value `v`
(where `v` itself is `none` for a Python `None` value), `none` when the
key is absent. -/
def lookup (d : Record) (k : String) : Option (Option String) :=
  match d with
  | [] => none
  | (k', v) :: rest => if k' = k then some v else lookup rest k

/-- Python `k in d` membership test. -/
def hasKey (d : Record) (k : String) : Bool :=
  (lookup d k).isSome

/-- Python `d[k]` under a `k in d` guard: the stored value
(`none` when the key is absent, a case the source never reaches because
every subscript in `mask_sensitive_data` is guarded by `in`). -/
def getVal (d : Record) (k : String) : Option String :=
  (lookup d k).join

/-- Python `d[k] = v`: overwrite in place when the key is present
(keeping its position, as dict assignment does), append otherwise. -/
def setVal (d : Record) (k : String) (v : Option String) : Record :=
  match d with
  | [] => [(k, v)]
  | (k', v') :: rest => if k' = k then (k, v) :: rest else (k', v') :: setVal rest k v

/-- Decimal digit character, as Python's integer formatting produces. -/
def natDigitChar (n : Nat) : Char := Char.ofNat (48 + n % 10)

/-- Decimal digits of a natural number, most significant first
(fuel-driven so the recursion is structural). -/
def natDigitsAux : Nat → Nat → List Char
  | 0, _ => []
  | fuel + 1, n =>
    if n < 10 then [natDigitChar n]
    else natDigitsAux fuel (n / 10) ++ [natDigitChar (n % 10)]

def natDigits (n : Nat) : List Char := natDigitsAux (n + 1) n

/-- Python `f"{n:04d}"`: the decimal rendering zero-padded to width 4. -/
def formatPad4 (n : Nat) : String :=
  String.mk (List.replicate (4 - (natDigits n).length) '0' ++ natDigits n)

/-- Modelled from the spec: the MD5 digest from Python's `hashlib`
(an external library) is a deterministic hash of the input string; the
source keeps its first 8 hex characters uppercased, the spec's
"hash-derived 8-character label".  Embedded as a deterministic 32-bit
string mix rendered as 8 uppercase hex characters. -/
def md5Mix (s : String) : Nat :=
  s.data.foldl (fun a c => (a * 131 + c.toNat + 7) % 4294967296) 5381

def hexDigitChar (n : Nat) : Char :=
  if n < 10 then Char.ofNat (48 + n) else Char.ofNat (55 + n)

def md5Hex8Upper (s : String) : String :=
  String.mk ((List.range 8).map (fun i => hexDigitChar (md5Mix s / 16 ^ (7 - i) % 16)))

/-- `anonymize_name(name, patient_id=None)` from `src/utils.py`.
Python truthiness: `if patient_id:` is false both for `None` and for the
integer `0`, so a supplied id of 0 falls into the hash branch. -/
def anonymize_name (name : Option String) (patient_id : Option Nat) : Option String :=
  match name with
  | none => none
  | some s =>
    if s = "" then none
    else
      match patient_id with
      | some pid =>
        if pid ≠ 0 then some ("ANON_" ++ formatPad4 pid)
        else some ("ANON_" ++ md5Hex8Upper s)
      | none => some ("ANON_" ++ md5Hex8Upper s)

/-- `mask_contact(contact)` from `src/utils.py`: strip non-digits, keep
the last four digits when at least four remain. -/
def mask_contact (contact : Option String) : Option String :=
  match contact with
  | none => none
  | some s =>
    if s = "" then none
    else
      let digits := s.data.filter Char.isDigit
      if digits.length ≥ 4 then
        some ("XXX-XXX-" ++ String.mk (digits.drop (digits.length - 4)))
      else some "XXX-XXX-XXXX"

/-- Python `str.split(sep)` for a one-character separator. -/
def splitOnCharAux (c : Char) : List Char → List Char → List (List Char)
  | [], acc => [acc.reverse]
  | x :: xs, acc =>
    if x = c then acc.reverse :: splitOnCharAux c xs []
    else splitOnCharAux c xs (x :: acc)

def splitOnChar (c : Char) (s : List Char) : List (List Char) :=
  splitOnCharAux c s []

/-- `mask_email(email)` from `src/utils.py`.  `parts[0][0]` raises
`IndexError` when the local part is empty (input starting with `@`);
that uncaught exception is the `Except.error ()` outcome. -/
def mask_email (email : Option String) : Except Unit (Option String) :=
  match email with
  | none => Except.ok none
  | some s =>
    if s = "" ∨ '@' ∉ s.data then Except.ok none
    else
      match splitOnChar '@' s.data with
      | username :: domain :: _ =>
        match username with
        | [] => Except.error ()
        | u0 :: rest =>
          let maskedUsername :=
            if (u0 :: rest).length ≤ 2 then String.mk [u0, '*']
            else String.mk (u0 :: List.replicate ((u0 :: rest).length - 1) '*')
          Except.ok (some (maskedUsername ++ "@" ++ String.mk domain))
      | _ => Except.error ()

/-- Python `str.strip()` whitespace set (ASCII part). -/
def isPySpace (c : Char) : Bool :=
  c = ' ' ∨ c = '\t' ∨ c = '\n' ∨ c = '\r' ∨ c = '\x0b' ∨ c = '\x0c'

def pyStrip (l : List Char) : List Char :=
  ((l.dropWhile isPySpace).reverse.dropWhile isPySpace).reverse

/-- `anonymize_address(address)` from `src/utils.py`: keep only the part
after the last comma, stripped, behind a `*****, ` mask. -/
def anonymize_address (address : Option String) : Option String :=
  match address with
  | none => none
  | some s =>
    if s = "" then none
    else
      let parts := splitOnChar ',' s.data
      if parts.length > 1 then
        some ("*****, " ++ String.mk (pyStrip (parts.getLastD [])))
      else some "*****"

/-- `check_retention_expired(retention_date)` from `src/utils.py`, with
the implicit `datetime.now()` made an explicit `now` argument (time
points embedded as integers).  A falsy (`None`) retention date yields
`False`; otherwise the source compares `datetime.now() > retention_date`. -/
def check_retention_expired (retention_date : Option Int) (now : Int) : Bool :=
  match retention_date with
  | none => false
  | some d => decide (now > d)

/-- Python's `if k in masked: masked[k] = f(masked)` pattern, the shape
of every guarded assignment in `mask_sensitive_data`. -/
def updateIfPresent (d : Record) (k : String) (f : Record → Option String) : Record :=
  if hasKey d k then setVal d k (f d) else d

/-- Doctor branch, `if 'name' in masked` assignment: the name is replaced
by `masked.get('anonymized_name', anonymize_name(masked['name']))` — the
stored `anonymized_name` value when that key is present (even if `None`),
the hash-anonymized name otherwise. -/
def doctorNameStep (d : Record) : Record :=
  updateIfPresent d "name" (fun m =>
    if hasKey m "anonymized_name" then getVal m "anonymized_name"
    else anonymize_name (getVal m "name") none)

/-- Doctor branch, `if 'contact' in masked` assignment. -/
def doctorContactStep (d : Record) : Record :=
  updateIfPresent d "contact" (fun m => mask_contact (getVal m "contact"))

/-- Doctor branch, `if 'email' in masked` assignment; `mask_email` can
raise, and `mask_sensitive_data` does not catch it. -/
def doctorEmailStep (d : Record) : Except Unit Record :=
  if hasKey d "email" then
    match mask_email (getVal d "email") with
    | Except.ok v => Except.ok (setVal d "email" v)
    | Except.error e => Except.error e
  else Except.ok d

/-- Receptionist branch, `if 'diagnosis' in masked` assignment. -/
def receptionistDiagnosisStep (d : Record) : Record :=
  updateIfPresent d "diagnosis" (fun _ => some "***RESTRICTED***")

/-- Receptionist branch, `if 'address' in masked` assignment. -/
def receptionistAddressStep (d : Record) : Record :=
  updateIfPresent d "address" (fun m => anonymize_address (getVal m "address"))

/-- `mask_sensitive_data(data_dict, role)` from `src/utils.py`: admin
gets the dict back unchanged; doctor and receptionist get a copy with
their guarded assignments applied in source order; any other role gets
the untouched copy.  `dict.copy()` is value-identity in this functional
embedding; the only step that can raise is `mask_email` inside the
doctor branch. -/
def mask_sensitive_data (data_dict : Record) (role : String) : Except Unit Record :=
  if role = "admin" then Except.ok data_dict
  else if role = "doctor" then
    doctorEmailStep (doctorContactStep (doctorNameStep data_dict))
  else if role = "receptionist" then
    Except.ok (receptionistAddressStep (receptionistDiagnosisStep data_dict))
  else Except.ok data_dict

/-- Modelled from the spec: the bcrypt library (external dependency) —
"a salted, computationally-expensive one-way hash"; the produced hash
string embeds the salt so verification can recompute.  The digest is
any deterministic function of password and salt; the hash value is the
pair of salt and digest (the byte string bcrypt returns, which
`hash_password` decodes to text, is a faithful injective encoding of
that pair). -/
def bcryptDigest (password : String) (salt : Nat) : Nat :=
  password.data.foldl (fun a c => a * 1114112 + c.toNat + 1) 1 + 7 * salt

/-- `hash_password(password)` from `src/utils.py`, with the salt drawn
by `bcrypt.gensalt(rounds=12)` made an explicit argument.  The source
applies no input validation before calling `bcrypt.hashpw`. -/
def hash_password (password : String) (salt : Nat) : List Nat :=
  [salt, bcryptDigest password salt]

/-- Modelled from the spec: `bcrypt.checkpw` recomputes the digest from
the password and the salt stored in the hash and compares; a hash not in
bcrypt's format raises, which `verify_password`'s `except` turns into
`False` (here: the malformed-shape branch). -/
def bcryptCheckpw (password : String) (hashed : List Nat) : Bool :=
  match hashed with
  | [salt, digest] => decide (bcryptDigest password salt = digest)
  | _ => false

/-- `verify_password(password, hashed_password)` from `src/utils.py`:
delegates to `bcrypt.checkpw` inside a catch-all `except` that returns
`False`. -/
def verify_password (password : String) (hashed : List Nat) : Bool :=
  bcryptCheckpw password hashed

/-- Modelled from the spec: a Fernet token from the `cryptography`
library (external dependency) — "an authenticated, self-describing
ciphertext (includes nonce/IV and integrity tag)". -/
structure FernetToken where
  nonce : Nat
  body : List Nat
  tag : Nat
deriving DecidableEq

/-- Modelled from the spec: Fernet's HMAC integrity tag over key, nonce
and ciphertext body; for a fixed nonce and body, distinct keys yield
distinct tags. -/
def fernetMac (key nonce : Nat) (body : List Nat) : Nat :=
  key + 4294967296 * (nonce + 4294967296 * body.foldl (fun a b => a * 1114112 + b + 1) 1)

/-- Modelled from the spec: Fernet encryption proper — a keyed reversible
transform of the plaintext bytes plus the integrity tag. -/
def fernetEncryptBytes (key nonce : Nat) (pt : List Nat) : FernetToken :=
  let body := pt.map (fun b => b + key + nonce)
  { nonce := nonce, body := body, tag := fernetMac key nonce body }

/-- Modelled from the spec: Fernet decryption — verify the integrity tag
(raising `InvalidToken`, the `Except.error ()` outcome, on mismatch, in
particular under a wrong key or a tampered body) and invert the keyed
transform. -/
def fernetDecryptBytes (key : Nat) (tok : FernetToken) : Except Unit (List Nat) :=
  if fernetMac key tok.nonce tok.body = tok.tag then
    Except.ok (tok.body.map (fun b => b - key - tok.nonce))
  else Except.error ()

namespace EncryptionManager

/-- `EncryptionManager.encrypt(plaintext)` from `src/utils.py`: `None`
for `None`/empty input, otherwise the Fernet token over the plaintext
bytes (the random nonce Fernet draws is an explicit argument). -/
def encrypt (key nonce : Nat) (plaintext : Option String) : Option FernetToken :=
  match plaintext with
  | none => none
  | some s =>
    if s = "" then none
    else some (fernetEncryptBytes key nonce (s.data.map Char.toNat))

/-- `EncryptionManager.decrypt(ciphertext)` from `src/utils.py`: `None`
for `None`/empty ciphertext; otherwise Fernet decryption inside a
catch-all `except` that prints and returns `None`, so a failed integrity
check never propagates. -/
def decrypt (key : Nat) (ciphertext : Option FernetToken) : Option String :=
  match ciphertext with
  | none => none
  | some tok =>
    match fernetDecryptBytes key tok with
    | Except.ok bytes => some (String.mk (bytes.map Char.ofNat))
    | Except.error _ => none

end EncryptionManager

/-! Dictionary and round-trip helper lemmas -/

theorem lookup_setVal_self (d : Record) (k : String) (v : Option String) :
    lookup (setVal d k v) k = some v := by
  induction d with
  | nil => simp [setVal, lookup]
  | cons p rest ih =>
    obtain ⟨k', v'⟩ := p
    by_cases h : k' = k
    · simp [setVal, lookup, h]
    · simp [setVal, lookup, h, ih]

theorem lookup_setVal_other (d : Record) (k k' : String) (v : Option String)
    (hne : k' ≠ k) : lookup (setVal d k v) k' = lookup d k' := by
  induction d with
  | nil => simp [setVal, lookup, Ne.symm hne]
  | cons p rest ih =>
    obtain ⟨k0, v0⟩ := p
    by_cases h : k0 = k
    · subst h
      simp [setVal, lookup, Ne.symm hne]
    · by_cases h' : k0 = k'
      · simp [setVal, lookup, h, h', hne]
      · simp [setVal, lookup, h, h', ih]

theorem hasKey_setVal (d : Record) (k k' : String) (v : Option String) :
    hasKey (setVal d k v) k' = if k' = k then true else hasKey d k' := by
  by_cases h : k' = k
  · subst h
    simp [hasKey, lookup_setVal_self]
  · simp [hasKey, h, lookup_setVal_other d k k' v h]

theorem getVal_setVal_other (d : Record) (k k' : String) (v : Option String)
    (hne : k' ≠ k) : getVal (setVal d k v) k' = getVal d k' := by
  simp [getVal, lookup_setVal_other d k k' v hne]

theorem lookup_updateIfPresent_other (d : Record) (k k' : String)
    (f : Record → Option String) (hne : k' ≠ k) :
    lookup (updateIfPresent d k f) k' = lookup d k' := by
  unfold updateIfPresent
  by_cases h : hasKey d k
  · simp [h, lookup_setVal_other d k k' (f d) hne]
  · simp [h]

theorem lookup_updateIfPresent_self (d : Record) (k : String)
    (f : Record → Option String) :
    lookup (updateIfPresent d k f) k =
      if hasKey d k then some (f d) else lookup d k := by
  unfold updateIfPresent
  by_cases h : hasKey d k
  · simp [h, lookup_setVal_self]
  · simp [h]

theorem hasKey_updateIfPresent (d : Record) (k k' : String)
    (f : Record → Option String) :
    hasKey (updateIfPresent d k f) k' = hasKey d k' := by
  by_cases hne : k' = k
  · subst hne
    simp only [hasKey, lookup_updateIfPresent_self]
    by_cases h : hasKey d k' <;> simp_all [hasKey]
  · simp [hasKey, lookup_updateIfPresent_other d k k' f hne]

theorem getVal_updateIfPresent_other (d : Record) (k k' : String)
    (f : Record → Option String) (hne : k' ≠ k) :
    getVal (updateIfPresent d k f) k' = getVal d k' := by
  simp [getVal, lookup_updateIfPresent_other d k k' f hne]

theorem enc_dec_chars (key nonce : Nat) (l : List Char) :
    (((l.map Char.toNat).map (fun b => b + key + nonce)).map
      (fun b => b - key - nonce)).map Char.ofNat = l := by
  induction l with
  | nil => rfl
  | cons c t ih =>
    simp only [List.map_cons, List.cons.injEq]
    refine ⟨?_, ih⟩
    have h : c.toNat + key + nonce - key - nonce = c.toNat := by omega
    rw [h, Char.ofNat_toNat]

/-! Claim theorems -/

/-- Claim C1: `mask_sensitive_data` with role `admin` returns a record
value-equal to the input, for every record; and with role `receptionist`
on any record containing a `diagnosis` field it returns a record whose
`diagnosis` field is the constant `***RESTRICTED***`, regardless of the
input diagnosis value. -/
theorem claimC1_admin_identity_receptionist_redacts (d : Record) :
    mask_sensitive_data d "admin" = Except.ok d ∧
    (∀ dv, lookup d "diagnosis" = some dv →
      ∃ r, mask_sensitive_data d "receptionist" = Except.ok r ∧
        lookup r "diagnosis" = some (some "***RESTRICTED***")) := by
  constructor
  · simp [mask_sensitive_data]
  · intro dv h
    have hk : hasKey d "diagnosis" = true := by simp [hasKey, h]
    refine ⟨receptionistAddressStep (receptionistDiagnosisStep d), ?_, ?_⟩
    · simp [mask_sensitive_data]
    · unfold receptionistAddressStep receptionistDiagnosisStep
      rw [lookup_updateIfPresent_other _ _ _ _ (by decide),
        lookup_updateIfPresent_self]
      simp [hk]

/-- Claim C1 witness at a concrete record, discharging the
diagnosis-presence hypothesis of the receptionist conjunct. -/
theorem claimC1_witness :
    mask_sensitive_data
        [("diagnosis", some "Flu"), ("address", some "123 Main St, Karachi")] "admin" =
      Except.ok [("diagnosis", some "Flu"), ("address", some "123 Main St, Karachi")] ∧
    ∃ r, mask_sensitive_data
        [("diagnosis", some "Flu"), ("address", some "123 Main St, Karachi")]
        "receptionist" = Except.ok r ∧
      lookup r "diagnosis" = some (some "***RESTRICTED***") :=
  ⟨(claimC1_admin_identity_receptionist_redacts
      [("diagnosis", some "Flu"), ("address", some "123 Main St, Karachi")]).1,
    (claimC1_admin_identity_receptionist_redacts
      [("diagnosis", some "Flu"), ("address", some "123 Main St, Karachi")]).2
      (some "Flu") (by decide)⟩

/-- Claim C2 counterexample: a retention deadline exactly equal to the
current time is reported as not expired by `check_retention_expired`
(the source compares `datetime.now() > retention_date` strictly), while
the claim requires `deadline <= now` to count as expired. -/
theorem claimC2_counterexample :
    check_retention_expired (some 0) 0 = false ∧ (0 : Int) ≤ 0 := by decide

/-- Claim C2 (amended): the retention-expiry check reports expired if
and only if the deadline is strictly earlier than the current time; a
deadline exactly equal to `now` is still not expired (boundary open on
the earlier state). -/
theorem claimC2_amended_strict_boundary (d now : Int) :
    check_retention_expired (some d) now = true ↔ d < now := by
  simp [check_retention_expired]

/-- Claim C3: the claim says no core function may crash on malformed
input, but `mask_email` evaluates `parts[0][0]` on the empty local part
of `"@domain.com"`, raising an uncaught `IndexError` (the
`Except.error ()` outcome) instead of returning a typed failure. -/
theorem claimC3_mask_email_crash :
    mask_email (some "@domain.com") = Except.error () := by decide

/-- Claim C4: for every key, nonce and non-empty plaintext, decrypting
the encryption of the plaintext under the same key instance returns the
plaintext. -/
theorem claimC4_roundtrip (key nonce : Nat) (x : String) (hx : x ≠ "") :
    EncryptionManager.decrypt key (EncryptionManager.encrypt key nonce (some x)) =
      some x := by
  simp only [EncryptionManager.encrypt, EncryptionManager.decrypt, if_neg hx]
  simp only [fernetEncryptBytes, fernetDecryptBytes]
  simp only [if_true]
  rw [enc_dec_chars]

/-- Claim C4 witness at a concrete key, nonce and plaintext. -/
theorem claimC4_witness :
    ("hi" : String) ≠ "" ∧
    EncryptionManager.decrypt 5 (EncryptionManager.encrypt 5 7 (some "hi")) =
      some "hi" :=
  ⟨by decide, claimC4_roundtrip 5 7 "hi" (by decide)⟩

/-- Claim C5: for every non-empty password and any two distinct salts
drawn by the two `hash_password` calls, both hashes verify against the
password and the two hash values differ (salt uniqueness). -/
theorem claimC5_hash_verify (p : String) (s1 s2 : Nat)
    (_hp : p ≠ "") (hs : s1 ≠ s2) :
    verify_password p (hash_password p s1) = true ∧
    verify_password p (hash_password p s2) = true ∧
    hash_password p s1 ≠ hash_password p s2 := by
  refine ⟨?_, ?_, ?_⟩
  · simp [verify_password, bcryptCheckpw, hash_password]
  · simp [verify_password, bcryptCheckpw, hash_password]
  · simp [hash_password, hs]

/-- Claim C5 witness at a concrete password and two concrete salts. -/
theorem claimC5_witness :
    ("admin123" : String) ≠ "" ∧ (0 : Nat) ≠ 1 ∧
    (verify_password "admin123" (hash_password "admin123" 0) = true ∧
     verify_password "admin123" (hash_password "admin123" 1) = true ∧
     hash_password "admin123" 0 ≠ hash_password "admin123" 1) :=
  ⟨by decide, by decide, claimC5_hash_verify "admin123" 0 1 (by decide) (by decide)⟩

/-- Claim C6 counterexample: `hash_password` applies no input validation,
so the empty password is hashed rather than rejected; the produced hash
even verifies against the empty password. -/
theorem claimC6_counterexample :
    verify_password "" (hash_password "" 0) = true := by decide

/-- Claim C6 (amended): `hash_password` does not fail on the empty
password; for every salt it returns a bcrypt hash, and that hash
verifies against the empty password. -/
theorem claimC6_amended_no_empty_check (salt : Nat) :
    verify_password "" (hash_password "" salt) = true := by
  simp [verify_password, bcryptCheckpw, hash_password]

/-- Claim C7: decrypting with one key a ciphertext produced under a
different key fails the integrity check and yields `none` (never the
plaintext), and any token whose integrity tag does not match yields
`none` rather than a propagated exception. -/
theorem claimC7_wrong_key_or_bad_tag (k1 k2 nonce : Nat) (x : String)
    (tok : FernetToken) (hk : k1 ≠ k2) (hx : x ≠ "")
    (htag : fernetMac k2 tok.nonce tok.body ≠ tok.tag) :
    EncryptionManager.decrypt k2 (EncryptionManager.encrypt k1 nonce (some x)) = none ∧
    EncryptionManager.decrypt k2 (some tok) = none := by
  have hmac : ∀ body : List Nat,
      fernetMac k2 nonce body ≠ fernetMac k1 nonce body := by
    intro body
    unfold fernetMac
    intro hcontr
    generalize 4294967296 *
      (nonce + 4294967296 * body.foldl (fun a b => a * 1114112 + b + 1) 1) = c at hcontr
    omega
  constructor
  · simp only [EncryptionManager.encrypt, if_neg hx, EncryptionManager.decrypt,
      fernetEncryptBytes, fernetDecryptBytes]
    rw [if_neg (hmac _)]
  · simp [EncryptionManager.decrypt, fernetDecryptBytes, htag]

/-- Claim C7 witness at concrete mismatched keys and a concrete
bad-tag token. -/
theorem claimC7_witness :
    (1 : Nat) ≠ 2 ∧ ("a" : String) ≠ "" ∧
    fernetMac 2 (FernetToken.mk 0 [5] 0).nonce (FernetToken.mk 0 [5] 0).body ≠
      (FernetToken.mk 0 [5] 0).tag ∧
    (EncryptionManager.decrypt 2 (EncryptionManager.encrypt 1 0 (some "a")) = none ∧
     EncryptionManager.decrypt 2 (some (FernetToken.mk 0 [5] 0)) = none) :=
  ⟨by decide, by decide, by decide,
    claimC7_wrong_key_or_bad_tag 1 2 0 "a" (FernetToken.mk 0 [5] 0)
      (by decide) (by decide) (by decide)⟩

/-- Claim C8 counterexample: a supplied patient id of 0 is falsy in
Python, so `anonymize_name("John Doe", 0)` takes the hash branch and
does not return the zero-padded label `ANON_0000`. -/
theorem claimC8_counterexample :
    anonymize_name (some "John Doe") (some 0) ≠ some "ANON_0000" := by decide

/-- Claim C8 (amended): for every non-empty name and every positive
supplied id, `anonymize_name` returns `ANON_` followed by the id
zero-padded to width 4, depending only on the id; with no id it returns
an 8-character hash-derived label depending only on the name; it returns
`none` for empty or `None` input.  A supplied id of 0 is treated as
absent (hash branch). -/
theorem claimC8_amended_anonymize_name (name n1 n2 : String) (pid : Nat)
    (hname : name ≠ "") (h1 : n1 ≠ "") (h2 : n2 ≠ "") (hid : 0 < pid) :
    anonymize_name (some name) (some pid) = some ("ANON_" ++ formatPad4 pid) ∧
    anonymize_name (some n1) (some pid) = anonymize_name (some n2) (some pid) ∧
    (∃ lab, anonymize_name (some name) none = some ("ANON_" ++ lab) ∧
      lab.length = 8) ∧
    anonymize_name (some "") (some pid) = none ∧
    anonymize_name (none : Option String) (some pid) = none := by
  have hz : pid ≠ 0 := Nat.pos_iff_ne_zero.mp hid
  refine ⟨?_, ?_, ?_, ?_, ?_⟩
  · simp [anonymize_name, hname, hz]
  · simp [anonymize_name, h1, h2, hz]
  · refine ⟨md5Hex8Upper name, ?_, ?_⟩
    · simp [anonymize_name, hname]
    · simp [md5Hex8Upper, String.length]
  · simp [anonymize_name]
  · simp [anonymize_name]

/-- Claim C8 witness: the spec's own example, evaluated. -/
theorem claimC8_witness :
    ("John Doe" : String) ≠ "" ∧ 0 < 1021 ∧
    anonymize_name (some "John Doe") (some 1021) = some "ANON_1021" :=
  ⟨by decide, by decide,
    ((claimC8_amended_anonymize_name "John Doe" "Alice" "Bob" 1021
      (by decide) (by decide) (by decide) (by decide)).1).trans (by decide)⟩

/-- Claim C9: with role `doctor`, `mask_sensitive_data` leaves every
field other than `name`, `contact` and `email` unchanged (in particular
`diagnosis` and `blood_group` keep their input values); `name` is
replaced by the stored `anonymized_name` value when that field is
present, else by `anonymize_name(name)`; `contact` by
`mask_contact(contact)`; `email` by `mask_email(email)`. -/
theorem claimC9_doctor_masking (d r : Record)
    (h : mask_sensitive_data d "doctor" = Except.ok r) :
    (∀ k, k ≠ "name" → k ≠ "contact" → k ≠ "email" → lookup r k = lookup d k) ∧
    (hasKey d "name" = true →
      lookup r "name" = some
        (if hasKey d "anonymized_name" then getVal d "anonymized_name"
         else anonymize_name (getVal d "name") none)) ∧
    (hasKey d "contact" = true →
      lookup r "contact" = some (mask_contact (getVal d "contact"))) ∧
    (hasKey d "email" = true →
      ∃ v, mask_email (getVal d "email") = Except.ok v ∧
        lookup r "email" = some v) := by
  have hda : doctorEmailStep (doctorContactStep (doctorNameStep d)) = Except.ok r := by
    simpa [mask_sensitive_data] using h
  set m1 := doctorNameStep d with hm1
  set m2 := doctorContactStep m1 with hm2
  have hKe : hasKey m2 "email" = hasKey d "email" := by
    rw [hm2, hm1]
    unfold doctorContactStep doctorNameStep
    rw [hasKey_updateIfPresent, hasKey_updateIfPresent]
  have hGe : getVal m2 "email" = getVal d "email" := by
    rw [hm2, hm1]
    unfold doctorContactStep doctorNameStep
    rw [getVal_updateIfPresent_other _ _ _ _ (by decide),
      getVal_updateIfPresent_other _ _ _ _ (by decide)]
  have hframe2 : ∀ k, k ≠ "name" → k ≠ "contact" → lookup m2 k = lookup d k := by
    intro k hn hc
    rw [hm2, hm1]
    unfold doctorContactStep doctorNameStep
    rw [lookup_updateIfPresent_other _ _ _ _ hc, lookup_updateIfPresent_other _ _ _ _ hn]
  have hname2 : lookup m2 "name" = lookup m1 "name" := by
    rw [hm2]
    unfold doctorContactStep
    exact lookup_updateIfPresent_other _ _ _ _ (by decide)
  have hname1 : hasKey d "name" = true →
      lookup m1 "name" = some
        (if hasKey d "anonymized_name" then getVal d "anonymized_name"
         else anonymize_name (getVal d "name") none) := by
    intro hk
    rw [hm1]
    unfold doctorNameStep
    rw [lookup_updateIfPresent_self, if_pos hk]
  have hcontact2 : hasKey d "contact" = true →
      lookup m2 "contact" = some (mask_contact (getVal d "contact")) := by
    intro hk
    have hKc : hasKey m1 "contact" = hasKey d "contact" := by
      rw [hm1]
      unfold doctorNameStep
      rw [hasKey_updateIfPresent]
    have hGc : getVal m1 "contact" = getVal d "contact" := by
      rw [hm1]
      unfold doctorNameStep
      exact getVal_updateIfPresent_other _ _ _ _ (by decide)
    rw [hm2]
    unfold doctorContactStep
    rw [lookup_updateIfPresent_self, hKc, if_pos hk, hGc]
  unfold doctorEmailStep at hda
  by_cases hE : hasKey m2 "email" = true
  · rw [if_pos hE] at hda
    cases hme : mask_email (getVal m2 "email") with
    | error e =>
      rw [hme] at hda
      simp at hda
    | ok v =>
      rw [hme] at hda
      have hr : setVal m2 "email" v = r := by simpa using hda
      refine ⟨?_, ?_, ?_, ?_⟩
      · intro k hn hc he
        rw [← hr, lookup_setVal_other _ _ _ _ he, hframe2 k hn hc]
      · intro hk
        rw [← hr, lookup_setVal_other _ _ _ _ (by decide), hname2, hname1 hk]
      · intro hk
        rw [← hr, lookup_setVal_other _ _ _ _ (by decide), hcontact2 hk]
      · intro _
        refine ⟨v, ?_, ?_⟩
        · rw [← hGe, hme]
        · rw [← hr, lookup_setVal_self]
  · rw [if_neg hE] at hda
    have hr : m2 = r := by simpa using hda
    have hE' : hasKey m2 "email" = false := by
      simpa using hE
    refine ⟨?_, ?_, ?_, ?_⟩
    · intro k hn hc _
      rw [← hr, hframe2 k hn hc]
    · intro hk
      rw [← hr, hname2, hname1 hk]
    · intro hk
      rw [← hr, hcontact2 hk]
    · intro hk
      rw [hKe, hk] at hE'
      cases hE'

/-- Claim C9 witness at a concrete patient record. -/
theorem claimC9_witness :
    mask_sensitive_data
      [("name", some "John Doe"), ("anonymized_name", some "ANON_1021"),
       ("contact", some "+923001234567"), ("email", some "john.doe@email.com"),
       ("diagnosis", some "Flu")] "doctor" =
      Except.ok
        [("name", some "ANON_1021"), ("anonymized_name", some "ANON_1021"),
         ("contact", some "XXX-XXX-4567"), ("email", some "j*******@email.com"),
         ("diagnosis", some "Flu")] ∧
    ((∀ k, k ≠ "name" → k ≠ "contact" → k ≠ "email" →
      lookup
        [("name", some "ANON_1021"), ("anonymized_name", some "ANON_1021"),
         ("contact", some "XXX-XXX-4567"), ("email", some "j*******@email.com"),
         ("diagnosis", some "Flu")] k =
      lookup
        [("name", some "John Doe"), ("anonymized_name", some "ANON_1021"),
         ("contact", some "+923001234567"), ("email", some "john.doe@email.com"),
         ("diagnosis", some "Flu")] k) ∧
    (hasKey
        [("name", some "John Doe"), ("anonymized_name", some "ANON_1021"),
         ("contact", some "+923001234567"), ("email", some "john.doe@email.com"),
         ("diagnosis", some "Flu")] "name" = true →
      lookup
        [("name", some "ANON_1021"), ("anonymized_name", some "ANON_1021"),
         ("contact", some "XXX-XXX-4567"), ("email", some "j*******@email.com"),
         ("diagnosis", some "Flu")] "name" = some
        (if hasKey
            [("name", some "John Doe"), ("anonymized_name", some "ANON_1021"),
             ("contact", some "+923001234567"), ("email", some "john.doe@email.com"),
             ("diagnosis", some "Flu")] "anonymized_name" then
          getVal
            [("name", some "John Doe"), ("anonymized_name", some "ANON_1021"),
             ("contact", some "+923001234567"), ("email", some "john.doe@email.com"),
             ("diagnosis", some "Flu")] "anonymized_name"
         else anonymize_name (getVal
            [("name", some "John Doe"), ("anonymized_name", some "ANON_1021"),
             ("contact", some "+923001234567"), ("email", some "john.doe@email.com"),
             ("diagnosis", some "Flu")] "name") none)) ∧
    (hasKey
        [("name", some "John Doe"), ("anonymized_name", some "ANON_1021"),
         ("contact", some "+923001234567"), ("email", some "john.doe@email.com"),
         ("diagnosis", some "Flu")] "contact" = true →
      lookup
        [("name", some "ANON_1021"), ("anonymized_name", some "ANON_1021"),
         ("contact", some "XXX-XXX-4567"), ("email", some "j*******@email.com"),
         ("diagnosis", some "Flu")] "contact" = some
        (mask_contact (getVal
          [("name", some "John Doe"), ("anonymized_name", some "ANON_1021"),
           ("contact", some "+923001234567"), ("email", some "john.doe@email.com"),
           ("diagnosis", some "Flu")] "contact"))) ∧
    (hasKey
        [("name", some "John Doe"), ("anonymized_name", some "ANON_1021"),
         ("contact", some "+923001234567"), ("email", some "john.doe@email.com"),
         ("diagnosis", some "Flu")] "email" = true →
      ∃ v, mask_email (getVal
          [("name", some "John Doe"), ("anonymized_name", some "ANON_1021"),
           ("contact", some "+923001234567"), ("email", some "john.doe@email.com"),
           ("diagnosis", some "Flu")] "email") = Except.ok v ∧
        lookup
          [("name", some "ANON_1021"), ("anonymized_name", some "ANON_1021"),
           ("contact", some "XXX-XXX-4567"), ("email", some "j*******@email.com"),
           ("diagnosis", some "Flu")] "email" = some v)) :=
  ⟨by decide,
    claimC9_doctor_masking
      [("name", some "John Doe"), ("anonymized_name", some "ANON_1021"),
       ("contact", some "+923001234567"), ("email", some "john.doe@email.com"),
       ("diagnosis", some "Flu")]
      [("name", some "ANON_1021"), ("anonymized_name", some "ANON_1021"),
       ("contact", some "XXX-XXX-4567"), ("email", some "j*******@email.com"),
       ("diagnosis", some "Flu")]
      (by decide)⟩

/-- Claim C10: every role other than `admin`, `doctor` and
`receptionist` falls through both masking branches, so the caller gets
the full record back unchanged. -/
theorem claimC10_unknown_role_identity (d : Record) (role : String)
    (h1 : role ≠ "admin") (h2 : role ≠ "doctor") (h3 : role ≠ "receptionist") :
    mask_sensitive_data d role = Except.ok d := by
  simp [mask_sensitive_data, h1, h2, h3]

/-- Claim C10 witness for the role `nurse` on a concrete record. -/
theorem claimC10_witness :
    ("nurse" : String) ≠ "admin" ∧ ("nurse" : String) ≠ "doctor" ∧
    ("nurse" : String) ≠ "receptionist" ∧
    mask_sensitive_data
      [("name", some "John Doe"), ("diagnosis", some "Flu")] "nurse" =
      Except.ok [("name", some "John Doe"), ("diagnosis", some "Flu")] :=
  ⟨by decide, by decide, by decide,
    claimC10_unknown_role_identity
      [("name", some "John Doe"), ("diagnosis", some "Flu")] "nurse"
      (by decide) (by decide) (by decide)⟩

end RBAC
